import Mathlib

/-!
Verification development for the pflege_tabl_bot repository.

The file shallowly embeds the extraction and classification engine of the
repository (src/scraper.py and the dedup/categorization code of src/bot.py)
as executable Lean definitions, then proves or refutes the specified
properties about them.

String operations used by the Python source (str.split, str.strip,
str.lower, substring membership, int parsing) are modelled by structurally
recursive functions over the character list of a string, so that every
definition evaluates inside the kernel.
-/

namespace PflegeBot

/-- Model of the whitespace test used by Python str.strip. -/
def isWsChar (c : Char) : Bool :=
  c == ' ' || c == '\t' || c == '\n' || c == '\r'

/-- Model of Python str.strip (Selenium text is stripped at every use site). -/
def trimStr (s : String) : String :=
  String.mk (((s.data.dropWhile isWsChar).reverse.dropWhile isWsChar).reverse)

/-- Model of Python str.lower (ASCII case folding, as Char.toLower). -/
def lowerStr (s : String) : String :=
  String.mk (s.data.map Char.toLower)

/-- Does the character list start with the given pattern list. -/
def charsStartWith : List Char → List Char → Bool
  | [], _ => true
  | _ :: _, [] => false
  | a :: as, b :: bs => a == b && charsStartWith as bs

/-- Does the pattern list occur as a contiguous run inside the list. -/
def charsHasSub (pat : List Char) : List Char → Bool
  | [] => pat.isEmpty
  | c :: rest => charsStartWith pat (c :: rest) || charsHasSub pat rest

/-- Model of Python substring membership: pat in s. -/
def containsSub (s pat : String) : Bool :=
  charsHasSub pat.data s.data

/-- Model of Python cell.split on a comma, with all occurrences. -/
def splitCommaChars : List Char → List (List Char)
  | [] => [[]]
  | c :: rest =>
    let r := splitCommaChars rest
    if c = ',' then [] :: r
    else
      match r with
      | [] => [[c]]
      | g :: gs => (c :: g) :: gs

/-- Model of Python cell.split on a comma, as strings. -/
def splitComma (s : String) : List String :=
  (splitCommaChars s.data).map String.mk

/-- Split a character list at its first comma, if any. -/
def splitFirstComma : List Char → Option (List Char × List Char)
  | [] => none
  | c :: rest =>
    if c = ',' then some ([], rest)
    else (splitFirstComma rest).map (fun p => (c :: p.1, p.2))

/-- Model of bot.py line 72: cell.split with a single split, followed by
strip of both halves; yields none when the description has no comma. -/
def pair_split (cell : String) : Option (String × String) :=
  (splitFirstComma cell.data).map
    (fun p => (trimStr (String.mk p.1), trimStr (String.mk p.2)))

/-- Model of Python int() on an attribute string value. -/
def parse_digits : Nat → List Char → Option Nat
  | acc, [] => some acc
  | acc, c :: rest =>
    if c.isDigit then parse_digits (acc * 10 + (c.toNat - 48)) rest else none

/-- Model of Python int() on strings, returning none when parsing fails. -/
def parse_int_str (s : String) : Option Int :=
  match s.data with
  | [] => none
  | '-' :: rest =>
    if rest.isEmpty then none
    else (parse_digits 0 rest).map (fun n => -(n : Int))
  | l => (parse_digits 0 l).map (fun n => (n : Int))

/-! ### Standard markup tables (scraper.py, process_standard_tables) -/

/-- One tr element: its th cell texts and td cell texts, in document order. -/
structure HTMLRow where
  thTexts : List String
  tdTexts : List String
deriving DecidableEq

/-- One table element: its id attribute ("" when absent) and tr elements. -/
structure HTMLTable where
  idAttr : String
  rows : List HTMLRow
deriving DecidableEq

/-- All th texts of a list of rows in document order; models
table.find_elements(By.TAG_NAME, "th") in scraper.py lines 134 and 327. -/
def th_texts : List HTMLRow → List String
  | [] => []
  | r :: rest => r.thTexts ++ th_texts rest

/-- The td texts of a table's first row, or empty when there are no rows. -/
def first_row_tds (t : HTMLTable) : List String :=
  match t.rows with
  | [] => []
  | r :: _ => r.tdTexts

/-- scraper.py lines 132-144: all_headers comes from the table's th elements
when any exist, otherwise from the first row's td texts, each stripped. -/
def table_all_headers (t : HTMLTable) : List String :=
  let ths := th_texts t.rows
  if ths.isEmpty then (first_row_tds t).map trimStr
  else ths.map trimStr

/-- scraper.py line 150: the first row is skipped whenever any headers were
resolved and the table has rows. -/
def table_start_row (t : HTMLTable) : Nat :=
  if 0 < (table_all_headers t).length ∧ 0 < t.rows.length then 1 else 0

/-- scraper.py lines 323-345, get_header_info: secondary per-cell header
lookup via the table's th elements, then the first row's td texts. -/
def get_header_info (t : HTMLTable) (cellIdx : Nat) : String :=
  let ths := th_texts t.rows
  if cellIdx < ths.length ∧ trimStr (ths.getD cellIdx "") ≠ "" then
    "(Header: " ++ trimStr (ths.getD cellIdx "") ++ ")"
  else
    match t.rows with
    | [] => ""
    | r :: _ =>
      if cellIdx < r.tdTexts.length ∧ trimStr (r.tdTexts.getD cellIdx "") ≠ "" then
        "(Header: " ++ trimStr (r.tdTexts.getD cellIdx "") ++ ")"
      else ""

/-- scraper.py lines 167-172: header info for an empty cell, from
all_headers when the index carries a non-empty header, else get_header_info. -/
def header_info_for (hs : List String) (t : HTMLTable) (ci : Nat) : String :=
  if ci < hs.length ∧ hs.getD ci "" ≠ "" then
    " (Колонка: " ++ hs.getD ci "" ++ ")"
  else get_header_info t ci

/-- scraper.py lines 164-174: walk the cells of one row with their ordinal,
emitting a finding exactly for the cells whose stripped text is empty. -/
def scan_row_cells (mk : Nat → String) : Nat → List String → List String
  | _, [] => []
  | i, s :: rest =>
    if trimStr s = "" then mk i :: scan_row_cells mk (i + 1) rest
    else scan_row_cells mk (i + 1) rest

/-- scraper.py lines 153-162: optional row identifier from the first cell. -/
def row_id_text (r : HTMLRow) : String :=
  match r.tdTexts with
  | [] => ""
  | c :: _ => if trimStr c = "" then "" else " (ID: " ++ trimStr c ++ ")"

/-- Findings of one table row (scraper.py line 174 composes the string). -/
def table_row_findings (tid : String) (hs : List String) (t : HTMLTable)
    (ri : Nat) (r : HTMLRow) : List String :=
  scan_row_cells
    (fun ci =>
      tid ++ ", Строка " ++ toString (ri + 1) ++ row_id_text r ++
        ", Колонка " ++ toString (ci + 1) ++ header_info_for hs t ci)
    0 r.tdTexts

/-- scraper.py line 152: enumerate rows from the start row onwards. -/
def scan_rows (mk : Nat → HTMLRow → List String) : Nat → List HTMLRow → List String
  | _, [] => []
  | i, r :: rest => mk i r ++ scan_rows mk (i + 1) rest

/-- scraper.py line 129: id attribute when truthy, else a positional label. -/
def table_structure_id (idx : Nat) (t : HTMLTable) : String :=
  if t.idAttr = "" then "Table " ++ toString (idx + 1) else t.idAttr

/-- scraper.py lines 124-174: all findings of one standard table. -/
def process_table (idx : Nat) (t : HTMLTable) : List String :=
  let tid := table_structure_id idx t
  let hs := table_all_headers t
  let sr := table_start_row t
  scan_rows (table_row_findings tid hs t) sr (t.rows.drop sr)

/-- scraper.py process_standard_tables over the matched table elements. -/
def process_standard_tables : Nat → List HTMLTable → List String
  | _, [] => []
  | i, t :: rest => process_table i t ++ process_standard_tables (i + 1) rest

/-! ### ExtJS grids (scraper.py, process_extjs_grids) -/

/-- One div.x-grid-cell: its text and its data-columnid attribute, modelled
as "" when the attribute is absent or empty (both falsy in Python). -/
structure GridCell where
  text : String
  dataColumnId : String
deriving DecidableEq

/-- One div.x-grid-item row container: its data-recordindex attribute value
(none when absent) and its div.x-grid-cell descendants in order. -/
structure GridRow where
  dataRecordIndex : Option String
  cells : List GridCell
deriving DecidableEq

/-- One matched grid container. headerContainers are the texts of the
div.x-column-header elements, headerSpans those of span.x-column-header-text,
innerTexts those of the div.x-grid-cell-inner elements scanned by the
no-cells fallback branch. -/
structure Grid where
  idAttr : String
  headerContainers : List String
  headerSpans : List String
  rows : List GridRow
  innerTexts : List String
deriving DecidableEq

/-- Enumerate a list of strings from a starting ordinal, as the dict
header_texts is filled by scraper.py lines 202-205 and 214-217. -/
def idx_texts : Nat → List String → List (Nat × String)
  | _, [] => []
  | n, s :: rest => (n, s) :: idx_texts (n + 1) rest

/-- scraper.py lines 229-234, header method 3: first-row cell texts, with an
entry only for the positions whose stripped text is non-empty. -/
def first_row_hdrs : Nat → List GridCell → List (Nat × String)
  | _, [] => []
  | n, c :: rest =>
    if trimStr c.text = "" then first_row_hdrs (n + 1) rest
    else (n, trimStr c.text) :: first_row_hdrs (n + 1) rest

/-- scraper.py lines 195-237: the header_texts dict. Method 1 uses the
header-container elements; when it left the dict empty, method 2 uses the
header-text spans; when the dict is still empty, method 3 uses the first
row's cells (and leaves the dict empty when there is no row). -/
def header_texts (g : Grid) : List (Nat × String) :=
  let m1 := idx_texts 0 (g.headerContainers.map trimStr)
  if m1.isEmpty then
    let m2 := idx_texts 0 (g.headerSpans.map trimStr)
    if m2.isEmpty then
      match g.rows with
      | [] => []
      | r :: _ => first_row_hdrs 0 r.cells
    else m2
  else m1

/-- Dict lookup col_index in header_texts. -/
def lookup_header : List (Nat × String) → Nat → Option String
  | [], _ => none
  | (j, t) :: rest, i => if j = i then some t else lookup_header rest i

/-- scraper.py lines 282-301: column info of one empty grid cell. The
data-columnid attribute is used verbatim when truthy; otherwise the column
index is the cell ordinal modulo the header count (count 1 when the dict is
empty), and the header text at that index is appended when present. -/
def grid_col_info (ht : List (Nat × String)) (cellIdx : Nat) (cid : String) : String :=
  if cid = "" then
    let n := if ht.isEmpty then 1 else ht.length
    let ci := cellIdx % n
    let base := "Колонка " ++ toString (ci + 1)
    match lookup_header ht ci with
    | some t => base ++ " (" ++ t ++ ")"
    | none => base
  else cid

/-- scraper.py lines 247-257: row_identifiers maps each row ordinal with at
least one cell to the stripped text of its first cell. -/
def row_identifiers : Nat → List GridRow → List (Nat × String)
  | _, [] => []
  | i, r :: rest =>
    match r.cells with
    | [] => row_identifiers (i + 1) rest
    | c :: _ => (i, trimStr c.text) :: row_identifiers (i + 1) rest

/-- Dict lookup row_number in row_identifiers (row_number is a Python int). -/
def lookup_row_ident : List (Nat × String) → Int → Option String
  | [], _ => none
  | (j, t) :: rest, rn => if (j : Int) = rn then some t else lookup_row_ident rest rn

/-- scraper.py lines 262-280: row info of one empty grid cell, from the
data-recordindex of the ancestor row container; "unknown" when the attribute
is absent, empty, or fails to parse as an int; the row identifier is
appended when the dict has a non-empty entry at that number. -/
def grid_row_info (rids : List (Nat × String)) (r : GridRow) : String :=
  match r.dataRecordIndex with
  | none => "unknown"
  | some s =>
    if s = "" then "unknown"
    else
      match parse_int_str s with
      | none => "unknown"
      | some rn =>
        match lookup_row_ident rids rn with
        | some name => if name = "" then s else s ++ " (Пациент: " ++ name ++ ")"
        | none => s

/-- scraper.py line 303 composes the finding string of one empty grid cell. -/
def grid_cell_finding (eid : String) (ht : List (Nat × String))
    (rids : List (Nat × String)) (r : GridRow) (i : Nat) (c : GridCell) : String :=
  eid ++ ", Строка " ++ grid_row_info rids r ++ ", " ++
    grid_col_info ht i c.dataColumnId ++ " (Пустая ячейка)"

/-- Walk the cells of one grid row with the running global cell ordinal,
emitting a finding exactly for the cells whose stripped text is empty. -/
def scan_cells_in_row (mk : Nat → GridCell → String) : Nat → List GridCell → List String
  | _, [] => []
  | i, c :: rest =>
    if trimStr c.text = "" then mk i c :: scan_cells_in_row mk (i + 1) rest
    else scan_cells_in_row mk (i + 1) rest

/-- scraper.py lines 260-303: all x-grid-cell elements of the container are
enumerated in document order; the element list equals the concatenation of
the rows' cell lists, so the ordinal runs across row boundaries. -/
def scan_grid_rows (mk : GridRow → Nat → GridCell → String) : Nat → List GridRow → List String
  | _, [] => []
  | n, r :: rest => scan_cells_in_row (mk r) n r.cells ++ scan_grid_rows mk (n + r.cells.length) rest

/-- scraper.py lines 306-316: finding for one empty inner content div. -/
def grid_inner_finding (eid : String) (ht : List (Nat × String)) (i : Nat) : String :=
  let columnInfo :=
    if ht.isEmpty then ""
    else
      match lookup_header ht (i % ht.length) with
      | some t => " (Колонка: " ++ t ++ ")"
      | none => ""
  eid ++ ", Запись " ++ toString (i + 1) ++ columnInfo ++ " (Пустая ячейка)"

/-- Walk the inner content divs, emitting a finding per empty one. -/
def scan_inner_divs (mk : Nat → String) : Nat → List String → List String
  | _, [] => []
  | i, s :: rest =>
    if trimStr s = "" then mk i :: scan_inner_divs mk (i + 1) rest
    else scan_inner_divs mk (i + 1) rest

/-- scraper.py line 187: id attribute when truthy, else the selector name
(with the div. prefix removed) and a positional label. -/
def grid_structure_id (selName : String) (idx : Nat) (g : Grid) : String :=
  if g.idAttr = "" then selName ++ " " ++ toString (idx + 1) else g.idAttr

/-- All x-grid-cell elements of a container in document order. -/
def all_grid_cells : List GridRow → List GridCell
  | [] => []
  | r :: rest => r.cells ++ all_grid_cells rest

/-- scraper.py lines 184-316: all findings of one grid container. When the
container has cells they are scanned; otherwise the inner content divs are. -/
def process_grid (selName : String) (idx : Nat) (g : Grid) : List String :=
  let eid := grid_structure_id selName idx g
  let ht := header_texts g
  if (all_grid_cells g.rows).isEmpty then
    scan_inner_divs (grid_inner_finding eid ht) 0 g.innerTexts
  else
    scan_grid_rows (grid_cell_finding eid ht (row_identifiers 0 g.rows)) 0 g.rows

/-- scraper.py process_extjs_grids over the matched containers. -/
def process_extjs_grids (selName : String) : Nat → List Grid → List String
  | _, [] => []
  | i, g :: rest => process_grid selName i g ++ process_extjs_grids selName (i + 1) rest

/-! ### The scan (scraper.py, get_empty_cells) -/

/-- The rendered snapshot: the elements matched by each selector of
scraper.py lines 67-73, and the body text length used by the degraded-mode
message of line 99. -/
structure Page where
  tables : List HTMLTable
  gridItemContainers : List Grid
  xGrids : List Grid
  panelBodies : List Grid
  gridViews : List Grid
  bodyTextLength : Nat
deriving DecidableEq

/-- scraper.py lines 77-93: the selectors are tried in their fixed order and
the findings are accumulated into one flat sequence. -/
def structural_findings (p : Page) : List String :=
  process_standard_tables 0 p.tables ++
  process_extjs_grids "x-grid-item-container" 0 p.gridItemContainers ++
  process_extjs_grids "x-grid" 0 p.xGrids ++
  process_extjs_grids "x-panel-body" 0 p.panelBodies ++
  process_extjs_grids "x-grid-view" 0 p.gridViews

/-- scraper.py line 99: the degraded-mode synthetic finding. -/
def no_empty_msg (p : Page) : String :=
  "No empty cells identified. Page uses ExtJS framework which requires custom selectors. Page content length: " ++
    toString p.bodyTextLength ++ " characters"

/-- scraper.py lines 95-106: when the structural scan found nothing, the
single synthetic finding is returned instead of an empty list. -/
def scan_page (p : Page) : List String :=
  let ec := structural_findings p
  if ec.isEmpty then [no_empty_msg p] else ec

/-- scraper.py line 112: the synthetic error finding on a load timeout. -/
def timeout_message : String :=
  "Error: Page took too long to load. The site might be using complex JavaScript that requires authentication."

/-- How snapshot acquisition can go: the driver fails to start (or another
error outside the page-load wait occurs), the page-load wait times out, or
the rendered page is obtained. -/
inductive Acquisition where
  | driverFailure : Acquisition
  | timeout : Acquisition
  | loaded : Page → Acquisition
deriving DecidableEq

/-- Observable outcome of the scan: an exception propagated to the caller,
or a returned list of finding strings. -/
inductive ScanOutcome where
  | raised : ScanOutcome
  | returned : List String → ScanOutcome
deriving DecidableEq

/-- scraper.py lines 16-118, get_empty_cells: a driver failure re-raises
(lines 114-118); a load timeout returns the single error finding (lines
108-112); a loaded page is scanned (lines 75-106). -/
def get_empty_cells : Acquisition → ScanOutcome
  | Acquisition.driverFailure => ScanOutcome.raised
  | Acquisition.timeout => ScanOutcome.returned [timeout_message]
  | Acquisition.loaded p => ScanOutcome.returned (scan_page p)

/-! ### Deduplication (bot.py, check_empty_cells lines 139-155) -/

/-- bot.py lines 145-149: a comma part is kept for the key exactly when its
lowercased text contains one of the markers item, row, column. -/
def has_marker (part : String) : Bool :=
  containsSub (lowerStr part) "item" || containsSub (lowerStr part) "row" ||
    containsSub (lowerStr part) "column"

/-- bot.py lines 145-151: the dedup key of a finding description. -/
def join_bar : List String → String
  | [] => ""
  | [x] => x
  | x :: rest => x ++ "|" ++ join_bar rest

/-- bot.py lines 145-151: split on commas, keep the marker-bearing parts,
strip them, and join with the bar delimiter. -/
def cell_key (cell : String) : String :=
  join_bar (((splitComma cell).filter has_marker).map trimStr)

/-- bot.py lines 140-155: keep a finding exactly when its key has not been
seen before, accumulating the seen keys. -/
def dedup_go : List String → List String → List String
  | [], _ => []
  | c :: rest, seen =>
    if seen.contains (cell_key c) then dedup_go rest seen
    else c :: dedup_go rest (cell_key c :: seen)

/-- The deduplicated finding sequence of bot.py check_empty_cells. -/
def dedup_unique_cells (cells : List String) : List String :=
  dedup_go cells []

/-! ### Categorization (bot.py, organize_empty_cells lines 67-89) -/

/-- Append a value to the bucket of the given key, creating the bucket at
the end when the key is new (Python dict insertion order). -/
def add_to_bucket : List (String × List String) → String → String → List (String × List String)
  | [], k, v => [(k, [v])]
  | (k', vs) :: rest, k, v =>
    if k' = k then (k', vs ++ [v]) :: rest
    else (k', vs) :: add_to_bucket rest k v

/-- bot.py lines 71-87: a splittable description is bucketed under its
table id with its remainder stored; an unsplittable one goes whole into the
catch-all bucket. -/
def organize_step (acc : List (String × List String)) (cell : String) : List (String × List String) :=
  match pair_split cell with
  | some (tid, info) => add_to_bucket acc tid info
  | none => add_to_bucket acc "Другое" cell

/-- Fold organize_step over the finding sequence. -/
def organize_go : List (String × List String) → List String → List (String × List String)
  | acc, [] => acc
  | acc, c :: rest => organize_go (organize_step acc c) rest

/-- bot.py organize_empty_cells: the categorized result. -/
def organize_empty_cells (cells : List String) : List (String × List String) :=
  organize_go [] cells

/-- Total number of findings held across all buckets. -/
def bucket_total : List (String × List String) → Nat
  | [] => 0
  | (_, vs) :: rest => vs.length + bucket_total rest

/-! ### Dump-all artifact (scraper.py, dump_all_cells lines 375-399) -/

/-- scraper.py lines 381-389: headers come from the first row's th elements
when any exist, else from its td elements, each stripped. -/
def dump_headers (t : HTMLTable) : List String :=
  match t.rows with
  | [] => []
  | r :: _ => if r.thTexts.isEmpty then r.tdTexts.map trimStr else r.thTexts.map trimStr

/-- scraper.py line 396: the column name of the cell at ordinal k. -/
def dump_col_name (headers : List String) (k : Nat) : String :=
  if k < headers.length then headers.getD k "" else "Column " ++ toString (k + 1)

/-- Python dict assignment: replace the value in place when the key exists,
else append the pair at the end. -/
def dict_insert : List (String × String) → String → String → List (String × String)
  | [], k, v => [(k, v)]
  | (k', v') :: rest, k, v =>
    if k' = k then (k', v) :: rest
    else (k', v') :: dict_insert rest k v

/-- Python dict lookup. -/
def dict_lookup : List (String × String) → String → Option String
  | [], _ => none
  | (k', v) :: rest, k => if k' = k then some v else dict_lookup rest k

/-- scraper.py lines 394-397: fill row_data cell by cell. -/
def dump_row_go (headers : List String) : Nat → List String → List (String × String) → List (String × String)
  | _, [], d => d
  | k, c :: rest, d =>
    dump_row_go headers (k + 1) rest (dict_insert d (dump_col_name headers k) (trimStr c))

/-- The data mapping of one dumped row. -/
def dump_row_data (headers cells : List String) : List (String × String) :=
  dump_row_go headers 0 cells []

/-- scraper.py lines 391-398: the dumped rows of one table, numbered from 1
and skipping the header row. -/
def dump_table_rows (headers : List String) : Nat → List HTMLRow → List (Nat × List (String × String))
  | _, [] => []
  | i, r :: rest => (i, dump_row_data headers r.tdTexts) :: dump_table_rows headers (i + 1) rest

/-- The dump-all record of one table. -/
def dump_table_data (t : HTMLTable) : List (Nat × List (String × String)) :=
  dump_table_rows (dump_headers t) 1 (t.rows.drop 1)

/-! ### Filled-page predicates (hypotheses of the spec's property C1) -/

/-- Every td cell of every row of the table has non-empty stripped text. -/
def table_filled (t : HTMLTable) : Prop :=
  ∀ r ∈ t.rows, ∀ s ∈ r.tdTexts, trimStr s ≠ ""

/-- Every cell and every inner content div of the grid has non-empty
stripped text. -/
def grid_filled (g : Grid) : Prop :=
  (∀ r ∈ g.rows, ∀ c ∈ r.cells, trimStr c.text ≠ "") ∧
    (∀ s ∈ g.innerTexts, trimStr s ≠ "")

/-- Every cell of every discovered structure has non-empty stripped text. -/
def page_filled (p : Page) : Prop :=
  (∀ t ∈ p.tables, table_filled t) ∧
  (∀ g ∈ p.gridItemContainers, grid_filled g) ∧
  (∀ g ∈ p.xGrids, grid_filled g) ∧
  (∀ g ∈ p.panelBodies, grid_filled g) ∧
  (∀ g ∈ p.gridViews, grid_filled g)

/-! ### Concrete fixtures used by counterexamples and witnesses -/

/-- A fully filled page: one table with a header row and one data row whose
cells all have text; no grid containers. -/
def filledTable : HTMLTable :=
  { idAttr := "", rows := [⟨["H1", "H2"], []⟩, ⟨[], ["a", "b"]⟩] }

/-- The page holding only filledTable. -/
def filledPage : Page :=
  { tables := [filledTable], gridItemContainers := [], xGrids := [],
    panelBodies := [], gridViews := [], bodyTextLength := 42 }

/-- A table whose explicit th header sits in the second row while the first
row is a data row with an empty first cell. -/
def thLaterTable : HTMLTable :=
  { idAttr := "", rows := [⟨[], ["", "x"]⟩, ⟨["Header"], []⟩] }

/-- First finding description of the dedup counterexample: from Table 1. -/
def dupA : String := "Table 1, Строка 2, Колонка 3"

/-- Second finding description of the dedup counterexample: from Table 2,
a different structure and different locators. -/
def dupB : String := "Table 2, Строка 5, Колонка 7"

/-- A grid with no header containers and no header spans, whose first row
has one named cell, one blank cell and one more named cell. -/
def fallbackGrid : Grid :=
  { idAttr := "", headerContainers := [], headerSpans := [],
    rows := [⟨some "0", [⟨"Name", ""⟩, ⟨" ", ""⟩, ⟨"Age", ""⟩]⟩],
    innerTexts := [] }

/-! ## Helper lemmas -/

theorem mem_of_drop {α : Type} {a : α} : ∀ {l : List α} {n : Nat}, a ∈ l.drop n → a ∈ l
  | _, 0, h => h
  | [], _ + 1, h => by simp at h
  | _ :: xs, n + 1, h => List.mem_cons_of_mem _ (mem_of_drop (l := xs) (n := n) h)

theorem scan_row_cells_nil (mk : Nat → String) :
    ∀ (l : List String) (n : Nat), (∀ s ∈ l, trimStr s ≠ "") → scan_row_cells mk n l = [] := by
  intro l
  induction l with
  | nil => intro n _; rfl
  | cons s rest ih =>
    intro n h
    have hs : ¬ trimStr s = "" := h s (by simp)
    simp only [scan_row_cells, if_neg hs]
    exact ih (n + 1) (fun x hx => h x (by simp [hx]))

theorem scan_rows_nil (mk : Nat → HTMLRow → List String) :
    ∀ (rows : List HTMLRow) (n : Nat), (∀ i r, r ∈ rows → mk i r = []) → scan_rows mk n rows = [] := by
  intro rows
  induction rows with
  | nil => intro n _; rfl
  | cons r rest ih =>
    intro n h
    simp only [scan_rows]
    rw [h n r (by simp), ih (n + 1) (fun i x hx => h i x (by simp [hx]))]
    rfl

theorem process_table_nil (idx : Nat) (t : HTMLTable) (h : table_filled t) :
    process_table idx t = [] := by
  unfold process_table
  apply scan_rows_nil
  intro i r hr
  unfold table_row_findings
  apply scan_row_cells_nil
  intro s hs
  exact h r (mem_of_drop hr) s hs

theorem process_standard_tables_nil :
    ∀ (ts : List HTMLTable) (n : Nat), (∀ t ∈ ts, table_filled t) →
      process_standard_tables n ts = [] := by
  intro ts
  induction ts with
  | nil => intro n _; rfl
  | cons t rest ih =>
    intro n h
    simp only [process_standard_tables]
    rw [process_table_nil n t (h t (by simp)), ih (n + 1) (fun x hx => h x (by simp [hx]))]
    rfl

theorem scan_cells_in_row_nil (mk : Nat → GridCell → String) :
    ∀ (l : List GridCell) (n : Nat), (∀ c ∈ l, trimStr c.text ≠ "") →
      scan_cells_in_row mk n l = [] := by
  intro l
  induction l with
  | nil => intro n _; rfl
  | cons c rest ih =>
    intro n h
    have hc : ¬ trimStr c.text = "" := h c (by simp)
    simp only [scan_cells_in_row, if_neg hc]
    exact ih (n + 1) (fun x hx => h x (by simp [hx]))

theorem scan_grid_rows_nil (mk : GridRow → Nat → GridCell → String) :
    ∀ (rows : List GridRow) (n : Nat), (∀ r ∈ rows, ∀ c ∈ r.cells, trimStr c.text ≠ "") →
      scan_grid_rows mk n rows = [] := by
  intro rows
  induction rows with
  | nil => intro n _; rfl
  | cons r rest ih =>
    intro n h
    simp only [scan_grid_rows]
    rw [scan_cells_in_row_nil (mk r) r.cells n (h r (by simp)),
      ih (n + r.cells.length) (fun x hx => h x (by simp [hx]))]
    rfl

theorem scan_inner_divs_nil (mk : Nat → String) :
    ∀ (l : List String) (n : Nat), (∀ s ∈ l, trimStr s ≠ "") → scan_inner_divs mk n l = [] := by
  intro l
  induction l with
  | nil => intro n _; rfl
  | cons s rest ih =>
    intro n h
    have hs : ¬ trimStr s = "" := h s (by simp)
    simp only [scan_inner_divs, if_neg hs]
    exact ih (n + 1) (fun x hx => h x (by simp [hx]))

theorem process_grid_nil (selName : String) (idx : Nat) (g : Grid) (h : grid_filled g) :
    process_grid selName idx g = [] := by
  unfold process_grid
  by_cases hc : (all_grid_cells g.rows).isEmpty
  · simp only [hc, if_pos]
    exact scan_inner_divs_nil _ g.innerTexts 0 h.2
  · simp only [hc, if_neg, Bool.false_eq_true, not_false_eq_true]
    exact scan_grid_rows_nil _ g.rows 0 h.1

theorem process_extjs_grids_nil (selName : String) :
    ∀ (gs : List Grid) (n : Nat), (∀ g ∈ gs, grid_filled g) →
      process_extjs_grids selName n gs = [] := by
  intro gs
  induction gs with
  | nil => intro n _; rfl
  | cons g rest ih =>
    intro n h
    simp only [process_extjs_grids]
    rw [process_grid_nil selName n g (h g (by simp)),
      ih (n + 1) (fun x hx => h x (by simp [hx]))]
    rfl

theorem structural_findings_nil (p : Page) (h : page_filled p) :
    structural_findings p = [] := by
  unfold structural_findings
  rw [process_standard_tables_nil p.tables 0 h.1,
    process_extjs_grids_nil _ p.gridItemContainers 0 h.2.1,
    process_extjs_grids_nil _ p.xGrids 0 h.2.2.1,
    process_extjs_grids_nil _ p.panelBodies 0 h.2.2.2.1,
    process_extjs_grids_nil _ p.gridViews 0 h.2.2.2.2]
  rfl

/-! ## Claim theorems -/

/-- C1 counterexample: on a page where every cell of every discovered
structure has non-empty stripped text, the scan does not return an empty
sequence — it returns the single synthetic degraded-mode finding of
scraper.py lines 96-99. -/
theorem c1_counterexample :
    page_filled filledPage ∧
      get_empty_cells (Acquisition.loaded filledPage) =
        ScanOutcome.returned [no_empty_msg filledPage] ∧
      scan_page filledPage ≠ [] := by
  refine ⟨?_, by decide, by decide⟩
  unfold page_filled table_filled grid_filled
  decide

/-- C1 amended: for every page on which every cell of every discovered
structure has non-empty stripped text, the structural extraction yields zero
findings and the scan returns exactly the single synthetic degraded-mode
placeholder finding (rather than an empty sequence). -/
theorem c1_amended (p : Page) (h : page_filled p) :
    structural_findings p = [] ∧ scan_page p = [no_empty_msg p] := by
  have hs := structural_findings_nil p h
  refine ⟨hs, ?_⟩
  unfold scan_page
  rw [hs]
  rfl

/-- C1 witness: the amended theorem applied to the concrete filled page. -/
theorem c1_witness :
    structural_findings filledPage = [] ∧ scan_page filledPage = [no_empty_msg filledPage] :=
  c1_amended filledPage (by unfold page_filled table_filled grid_filled; decide)

/-- C2 (confirmed): a load timeout makes get_empty_cells return a sequence
holding exactly one synthetic error finding without raising, and the only
acquisition that propagates as an exception is the unrecoverable failure of
the acquisition capability itself. -/
theorem c2_timeout_and_hard_error :
    (get_empty_cells Acquisition.timeout = ScanOutcome.returned [timeout_message] ∧
      [timeout_message].length = 1) ∧
    (∀ a, get_empty_cells a = ScanOutcome.raised ↔ a = Acquisition.driverFailure) := by
  refine ⟨⟨rfl, rfl⟩, ?_⟩
  intro a
  cases a <;> simp [get_empty_cells]

/-- C2 witness: the theorem instantiated at the driver-failure acquisition. -/
theorem c2_witness : get_empty_cells Acquisition.driverFailure = ScanOutcome.raised :=
  (c2_timeout_and_hard_error.2 Acquisition.driverFailure).mpr rfl

/-- C3 counterexample: when snapshot acquisition times out the scan does not
raise — it returns a sequence holding one synthetic error finding, so the
claimed raising with zero findings is false on the code. -/
theorem c3_counterexample :
    get_empty_cells Acquisition.timeout ≠ ScanOutcome.raised ∧
      get_empty_cells Acquisition.timeout = ScanOutcome.returned [timeout_message] ∧
      [timeout_message].length = 1 := by
  refine ⟨?_, rfl, rfl⟩
  intro h
  cases h

/-- C3 amended: for every scan whose snapshot acquisition times out, the
operation returns, without raising, a sequence containing exactly one
synthetic acquisition-error finding and produces zero structural findings. -/
theorem c3_amended_timeout_returns :
    get_empty_cells Acquisition.timeout = ScanOutcome.returned [timeout_message] ∧
      ScanOutcome.returned [timeout_message] ≠ ScanOutcome.raised ∧
      [timeout_message].length = 1 := by
  refine ⟨rfl, ?_, rfl⟩
  intro h
  cases h

theorem idx_texts_cons (n : Nat) (s : String) (l : List String) :
    idx_texts n (s :: l) = (n, s) :: idx_texts (n + 1) l := rfl

theorem first_row_hdrs_ne_nil :
    ∀ (cells : List GridCell) (n : Nat), (∃ c ∈ cells, trimStr c.text ≠ "") →
      first_row_hdrs n cells ≠ [] := by
  intro cells
  induction cells with
  | nil => intro n h; obtain ⟨c, hc, _⟩ := h; simp at hc
  | cons c rest ih =>
    intro n h
    by_cases hc : trimStr c.text = ""
    · simp only [first_row_hdrs, if_pos hc]
      obtain ⟨x, hx, hxne⟩ := h
      rcases List.mem_cons.mp hx with rfl | hx2
      · exact absurd hc hxne
      · exact ih (n + 1) ⟨x, hx2, hxne⟩
    · simp [first_row_hdrs, hc]

/-- C5 (confirmed): grid header resolution tries the header-container
elements, then the header-text spans, then the first row's cells, in that
fixed order, using the first technique that produced any header entry; the
first-row fallback records an entry only at the positions whose stripped
text is non-empty; and with no matching header-container and no
header-text-span elements but a first row holding some non-empty cell text,
the resolved headers are non-empty and come from that first row. -/
theorem c5_header_cascade (g : Grid) :
    (g.headerContainers ≠ [] →
      header_texts g = idx_texts 0 (g.headerContainers.map trimStr)) ∧
    (g.headerContainers = [] → g.headerSpans ≠ [] →
      header_texts g = idx_texts 0 (g.headerSpans.map trimStr)) ∧
    (g.headerContainers = [] → g.headerSpans = [] → ∀ r rs, g.rows = r :: rs →
      header_texts g = first_row_hdrs 0 r.cells) ∧
    (g.headerContainers = [] → g.headerSpans = [] → g.rows = [] →
      header_texts g = []) ∧
    (g.headerContainers = [] → g.headerSpans = [] → ∀ r rs, g.rows = r :: rs →
      (∃ c ∈ r.cells, trimStr c.text ≠ "") → header_texts g ≠ []) := by
  refine ⟨?_, ?_, ?_, ?_, ?_⟩
  · intro h
    unfold header_texts
    cases hc : g.headerContainers with
    | nil => exact absurd hc h
    | cons a as => simp [hc, idx_texts]
  · intro h1 h2
    unfold header_texts
    cases hs : g.headerSpans with
    | nil => exact absurd hs h2
    | cons a as => simp [h1, hs, idx_texts]
  · intro h1 h2 r rs hr
    unfold header_texts
    simp [h1, h2, hr, idx_texts]
  · intro h1 h2 h3
    unfold header_texts
    simp [h1, h2, h3, idx_texts]
  · intro h1 h2 r rs hr hex
    unfold header_texts
    simp only [h1, h2, hr, idx_texts, List.map_nil, List.isEmpty_nil, if_pos]
    exact first_row_hdrs_ne_nil r.cells 0 hex

/-- C5 witness: the cascade applied to the concrete grid with no header
containers and no header spans but a resolvable first row. -/
theorem c5_witness :
    header_texts fallbackGrid =
        first_row_hdrs 0 [⟨"Name", ""⟩, ⟨" ", ""⟩, ⟨"Age", ""⟩] ∧
      header_texts fallbackGrid ≠ [] :=
  ⟨(c5_header_cascade fallbackGrid).2.2.1 rfl rfl ⟨some "0", _⟩ [] rfl,
   (c5_header_cascade fallbackGrid).2.2.2.2 rfl rfl ⟨some "0", _⟩ [] rfl
     ⟨⟨"Name", ""⟩, by decide, by decide⟩⟩

/-- C6 (confirmed): per empty grid cell, the column identity is the
framework column-id data attribute verbatim when present, otherwise the
positional label of the cell ordinal modulo the header count, joined with
the header text at that index when the header dict holds one. -/
theorem c6_column_resolution (ht : List (Nat × String)) (i : Nat) (cid : String) :
    (cid ≠ "" → grid_col_info ht i cid = cid) ∧
    (cid = "" → ht ≠ [] → ∀ t, lookup_header ht (i % ht.length) = some t →
      grid_col_info ht i cid =
        "Колонка " ++ toString (i % ht.length + 1) ++ " (" ++ t ++ ")") ∧
    (cid = "" → ht ≠ [] → lookup_header ht (i % ht.length) = none →
      grid_col_info ht i cid = "Колонка " ++ toString (i % ht.length + 1)) := by
  refine ⟨?_, ?_, ?_⟩
  · intro h
    unfold grid_col_info
    rw [if_neg h]
  · intro hcid hht t hl
    subst hcid
    cases ht with
    | nil => exact absurd rfl hht
    | cons a as =>
      simp only [List.length_cons] at hl
      simp [grid_col_info, hl]
  · intro hcid hht hl
    subst hcid
    cases ht with
    | nil => exact absurd rfl hht
    | cons a as =>
      simp only [List.length_cons] at hl
      simp [grid_col_info, hl]

/-- C6 witness: the resolution applied at a concrete attribute-bearing cell
and at a concrete attribute-free cell with one resolved header. -/
theorem c6_witness :
    grid_col_info [(0, "Name")] 5 "colX" = "colX" ∧
      grid_col_info [(0, "Name")] 2 "" = "Колонка 1 (Name)" := by
  refine ⟨(c6_column_resolution [(0, "Name")] 5 "colX").1 (by decide), ?_⟩
  have h := (c6_column_resolution [(0, "Name")] 2 "").2.1 rfl (by decide) "Name" (by decide)
  rw [h]
  decide

/-- C7 counterexample: a table whose explicit th header sits in its second
row while the first row is a data row with an empty first cell; the code
resolves headers from the th element yet still excludes the first row from
scanning, so the empty cell yields no finding. -/
theorem c7_counterexample :
    th_texts thLaterTable.rows = ["Header"] ∧
      thLaterTable.rows.head?.map HTMLRow.tdTexts = some ["", "x"] ∧
      trimStr "" = "" ∧
      process_table 0 thLaterTable = [] := by
  refine ⟨by decide, by decide, by decide, by decide⟩

/-- C7 amended: header resolution prefers explicit th cells and falls back
to the first row's td texts only when the table has no th cell; but the
first row is excluded from emptiness scanning whenever any headers were
resolved — from either source — and the table has rows, and it is scanned
only when header resolution produced nothing. -/
theorem c7_amended_header_skip (t : HTMLTable) :
    (th_texts t.rows ≠ [] → table_all_headers t = (th_texts t.rows).map trimStr) ∧
    (th_texts t.rows = [] → table_all_headers t = (first_row_tds t).map trimStr) ∧
    (table_all_headers t ≠ [] → t.rows ≠ [] → table_start_row t = 1) ∧
    (table_all_headers t = [] → table_start_row t = 0) ∧
    (∀ idx, process_table idx t =
      scan_rows
        (table_row_findings (table_structure_id idx t) (table_all_headers t) t)
        (table_start_row t) (t.rows.drop (table_start_row t))) := by
  refine ⟨?_, ?_, ?_, ?_, fun _ => rfl⟩
  · intro h
    unfold table_all_headers
    cases hth : th_texts t.rows with
    | nil => exact absurd hth h
    | cons a as => simp
  · intro h
    unfold table_all_headers
    rw [h]
    rfl
  · intro h1 h2
    unfold table_start_row
    rw [if_pos ⟨List.length_pos.mpr h1, List.length_pos.mpr h2⟩]
  · intro h
    unfold table_start_row
    rw [if_neg]
    intro hc
    rw [h] at hc
    exact absurd hc.1 (by simp)

/-- C7 witness: the amended theorem applied to the concrete table whose th
header is outside the first row. -/
theorem c7_witness :
    table_all_headers thLaterTable = (th_texts thLaterTable.rows).map trimStr ∧
      table_start_row thLaterTable = 1 :=
  ⟨(c7_amended_header_skip thLaterTable).1 (by decide),
   (c7_amended_header_skip thLaterTable).2.2.1 (by decide) (by decide)⟩

theorem bucket_total_add (acc : List (String × List String)) (k v : String) :
    bucket_total (add_to_bucket acc k v) = bucket_total acc + 1 := by
  induction acc with
  | nil => rfl
  | cons p rest ih =>
    obtain ⟨a, vs⟩ := p
    by_cases h : a = k
    · simp [add_to_bucket, h, bucket_total]
      omega
    · simp [add_to_bucket, h, bucket_total, ih]
      omega

theorem mem_keys_add (acc : List (String × List String)) (k v x : String)
    (h : x ∈ (add_to_bucket acc k v).map Prod.fst) :
    x ∈ acc.map Prod.fst ∨ x = k := by
  induction acc with
  | nil =>
    simp only [add_to_bucket, List.map_cons, List.map_nil, List.mem_singleton] at h
    right
    exact h
  | cons p rest ih =>
    obtain ⟨a, vs⟩ := p
    by_cases hak : a = k
    · simp only [add_to_bucket, if_pos hak, List.map_cons, List.mem_cons] at h
      left
      simp only [List.map_cons, List.mem_cons]
      exact h
    · simp only [add_to_bucket, if_neg hak, List.map_cons, List.mem_cons] at h
      rcases h with h1 | h2
      · left; simp [h1]
      · rcases ih h2 with h3 | h4
        · left; simp [h3]
        · right; exact h4

theorem keys_nodup_add (acc : List (String × List String)) (k v : String)
    (h : (acc.map Prod.fst).Nodup) :
    ((add_to_bucket acc k v).map Prod.fst).Nodup := by
  induction acc with
  | nil => simp [add_to_bucket]
  | cons p rest ih =>
    obtain ⟨a, vs⟩ := p
    simp only [List.map_cons, List.nodup_cons] at h
    by_cases hak : a = k
    · simp only [add_to_bucket, if_pos hak, List.map_cons, List.nodup_cons]
      exact h
    · simp only [add_to_bucket, if_neg hak, List.map_cons, List.nodup_cons]
      refine ⟨?_, ih h.2⟩
      intro hmem
      rcases mem_keys_add rest k v a hmem with h1 | h2
      · exact h.1 h1
      · exact hak h2

theorem organize_step_total (acc : List (String × List String)) (c : String) :
    bucket_total (organize_step acc c) = bucket_total acc + 1 := by
  unfold organize_step
  rcases h : pair_split c with _ | ⟨a, b⟩ <;> simp [h, bucket_total_add]

theorem organize_step_nodup (acc : List (String × List String)) (c : String)
    (h : (acc.map Prod.fst).Nodup) :
    ((organize_step acc c).map Prod.fst).Nodup := by
  unfold organize_step
  rcases hp : pair_split c with _ | ⟨a, b⟩ <;> simp [hp, keys_nodup_add _ _ _ h]

theorem organize_go_total :
    ∀ (cells : List String) (acc : List (String × List String)),
      bucket_total (organize_go acc cells) = bucket_total acc + cells.length := by
  intro cells
  induction cells with
  | nil => intro acc; simp [organize_go]
  | cons c rest ih =>
    intro acc
    simp only [organize_go]
    rw [ih, organize_step_total]
    simp
    omega

theorem organize_go_nodup :
    ∀ (cells : List String) (acc : List (String × List String)),
      (acc.map Prod.fst).Nodup → ((organize_go acc cells).map Prod.fst).Nodup := by
  intro cells
  induction cells with
  | nil => intro acc h; exact h
  | cons c rest ih =>
    intro acc h
    exact ih (organize_step acc c) (organize_step_nodup acc c h)

/-- C8 (confirmed): categorization partitions the finding sequence exactly —
the bucket sizes sum to the input length, no structure id owns two buckets,
and a finding whose description cannot be split into a (structure,
remainder) pair is routed whole into the reserved catch-all bucket. -/
theorem c8_partition (cells : List String) :
    bucket_total (organize_empty_cells cells) = cells.length ∧
      ((organize_empty_cells cells).map Prod.fst).Nodup ∧
      (∀ (acc : List (String × List String)) (c : String), pair_split c = none →
        organize_step acc c = add_to_bucket acc "Другое" c) := by
  refine ⟨?_, ?_, ?_⟩
  · unfold organize_empty_cells
    rw [organize_go_total]
    simp [bucket_total]
  · exact organize_go_nodup cells [] (by simp)
  · intro acc c h
    simp [organize_step, h]

/-- C8 witness: the partition theorem at a concrete finding sequence holding
a splittable, an unsplittable, and a repeated-structure description. -/
theorem c8_witness :
    bucket_total (organize_empty_cells ["Table 1, x", "nocomma", "Table 1, y"]) = 3 ∧
      organize_step [] "nocomma" = add_to_bucket [] "Другое" "nocomma" :=
  ⟨(c8_partition ["Table 1, x", "nocomma", "Table 1, y"]).1,
   (c8_partition []).2.2 [] "nocomma" (by decide)⟩

theorem dedup_go_subset_stable :
    ∀ (l s1 s2 : List String),
      (∀ k, s1.contains k = true → s2.contains k = true) →
      dedup_go (dedup_go l s2) s1 = dedup_go l s2 := by
  intro l
  induction l with
  | nil => intro s1 s2 _; rfl
  | cons c rest ih =>
    intro s1 s2 h
    by_cases hc : s2.contains (cell_key c) = true
    · rw [show dedup_go (c :: rest) s2 = dedup_go rest s2 from by
        simp only [dedup_go, if_pos hc]]
      exact ih s1 s2 h
    · have hc1 : ¬ s1.contains (cell_key c) = true := fun hx => hc (h _ hx)
      rw [show dedup_go (c :: rest) s2 = c :: dedup_go rest (cell_key c :: s2) from by
        simp only [dedup_go, if_neg hc]]
      rw [show dedup_go (c :: dedup_go rest (cell_key c :: s2)) s1 =
          c :: dedup_go (dedup_go rest (cell_key c :: s2)) (cell_key c :: s1) from by
        simp only [dedup_go, if_neg hc1]]
      congr 1
      apply ih
      intro k hk
      simp only [List.contains_cons, Bool.or_eq_true] at hk ⊢
      rcases hk with h1 | h2
      · left; exact h1
      · right; exact h _ h2

/-- C9 (confirmed): the deduplicator of check_empty_cells is idempotent —
applying it to its own output returns that output unchanged. -/
theorem c9_dedup_idempotent (cells : List String) :
    dedup_unique_cells (dedup_unique_cells cells) = dedup_unique_cells cells :=
  dedup_go_subset_stable cells [] [] (fun _ h => h)

theorem dedup_go_sublist : ∀ (l seen : List String), (dedup_go l seen).Sublist l := by
  intro l
  induction l with
  | nil => intro seen; exact List.Sublist.refl []
  | cons c rest ih =>
    intro seen
    by_cases hc : seen.contains (cell_key c) = true
    · rw [show dedup_go (c :: rest) seen = dedup_go rest seen from by
        simp only [dedup_go, if_pos hc]]
      exact (ih seen).cons c
    · rw [show dedup_go (c :: rest) seen = c :: dedup_go rest (cell_key c :: seen) from by
        simp only [dedup_go, if_neg hc]]
      exact (ih (cell_key c :: seen)).cons₂ c

theorem dedup_go_unseen :
    ∀ (l seen : List String) (c : String), c ∈ dedup_go l seen →
      seen.contains (cell_key c) = false := by
  intro l
  induction l with
  | nil => intro seen c h; simp [dedup_go] at h
  | cons x rest ih =>
    intro seen c h
    by_cases hx : seen.contains (cell_key x) = true
    · rw [show dedup_go (x :: rest) seen = dedup_go rest seen from by
        simp only [dedup_go, if_pos hx]] at h
      exact ih seen c h
    · rw [show dedup_go (x :: rest) seen = x :: dedup_go rest (cell_key x :: seen) from by
        simp only [dedup_go, if_neg hx]] at h
      rcases List.mem_cons.mp h with rfl | h2
      · simpa using hx
      · have h3 := ih (cell_key x :: seen) c h2
        simp only [List.contains_cons, Bool.or_eq_false_iff] at h3
        exact h3.2

theorem dedup_go_keys_nodup :
    ∀ (l seen : List String), ((dedup_go l seen).map cell_key).Nodup := by
  intro l
  induction l with
  | nil => intro seen; simp [dedup_go]
  | cons x rest ih =>
    intro seen
    by_cases hx : seen.contains (cell_key x) = true
    · rw [show dedup_go (x :: rest) seen = dedup_go rest seen from by
        simp only [dedup_go, if_pos hx]]
      exact ih seen
    · rw [show dedup_go (x :: rest) seen = x :: dedup_go rest (cell_key x :: seen) from by
        simp only [dedup_go, if_neg hx]]
      simp only [List.map_cons, List.nodup_cons]
      refine ⟨?_, ih (cell_key x :: seen)⟩
      intro hmem
      obtain ⟨c, hc, hck⟩ := List.mem_map.mp hmem
      have h3 := dedup_go_unseen rest (cell_key x :: seen) c hc
      simp only [List.contains_cons, Bool.or_eq_false_iff] at h3
      have : (cell_key c == cell_key x) = false := h3.1
      rw [hck] at this
      simp at this

theorem dedup_go_key_mem :
    ∀ (l seen : List String) (c : String), c ∈ l →
      seen.contains (cell_key c) = false →
      cell_key c ∈ (dedup_go l seen).map cell_key := by
  intro l
  induction l with
  | nil => intro seen c h _; simp at h
  | cons x rest ih =>
    intro seen c h hs
    by_cases hx : seen.contains (cell_key x) = true
    · rw [show dedup_go (x :: rest) seen = dedup_go rest seen from by
        simp only [dedup_go, if_pos hx]]
      rcases List.mem_cons.mp h with rfl | h2
      · rw [hs] at hx; cases hx
      · exact ih seen c h2 hs
    · rw [show dedup_go (x :: rest) seen = x :: dedup_go rest (cell_key x :: seen) from by
        simp only [dedup_go, if_neg hx]]
      simp only [List.map_cons, List.mem_cons]
      rcases List.mem_cons.mp h with rfl | h2
      · left; rfl
      · by_cases hk : cell_key c = cell_key x
        · left; exact hk
        · right
          apply ih (cell_key x :: seen) c h2
          simp only [List.contains_cons, Bool.or_eq_false_iff]
          exact ⟨by simp [hk], hs⟩

theorem dedup_go_first_occurrence :
    ∀ (l seen : List String) (c : String), c ∈ dedup_go l seen →
      l.find? (fun x => cell_key x == cell_key c) = some c := by
  intro l
  induction l with
  | nil => intro seen c h; simp [dedup_go] at h
  | cons x rest ih =>
    intro seen c h
    by_cases hx : seen.contains (cell_key x) = true
    · rw [show dedup_go (x :: rest) seen = dedup_go rest seen from by
        simp only [dedup_go, if_pos hx]] at h
      have hck := dedup_go_unseen rest seen c h
      have hne : ¬ cell_key x = cell_key c := by
        intro he
        rw [← he, hx] at hck
        cases hck
      rw [List.find?_cons_of_neg _ (by simp [hne])]
      exact ih seen c h
    · rw [show dedup_go (x :: rest) seen = x :: dedup_go rest (cell_key x :: seen) from by
        simp only [dedup_go, if_neg hx]] at h
      rcases List.mem_cons.mp h with rfl | h2
      · rw [List.find?_cons_of_pos _ (by simp)]
      · have hck := dedup_go_unseen rest (cell_key x :: seen) c h2
        simp only [List.contains_cons, Bool.or_eq_false_iff] at hck
        have hne : ¬ cell_key x = cell_key c := by
          intro he
          have := hck.1
          rw [he] at this
          simp at this
        rw [List.find?_cons_of_neg _ (by simp [hne])]
        exact ih (cell_key x :: seen) c h2

/-- C4 counterexample: two findings from different structures (Table 1 and
Table 2) with different row and column locators; none of their comma parts
carries an item/row/column marker, so both get the empty key and the second
is collapsed into the first — different structures are not kept apart. -/
theorem c4_counterexample :
    (pair_split dupA).map Prod.fst = some "Table 1" ∧
      (pair_split dupB).map Prod.fst = some "Table 2" ∧
      dupA ≠ dupB ∧
      cell_key dupA = "" ∧
      cell_key dupB = "" ∧
      dedup_unique_cells [dupA, dupB] = [dupA] := by
  refine ⟨by decide, by decide, by decide, by decide, by decide, by decide⟩

/-- C4 amended: the deduplication key keeps only the comma-separated
segments whose lowercased text contains an item, row or column marker, so
findings from different structures may share a key and be collapsed;
deduplication returns an order-preserving subsequence in which no two kept
findings share a key, every input key is represented, and the kept
representative of each key is the first input finding bearing it. -/
theorem c4_amended_dedup_key (cells : List String) :
    (dedup_unique_cells cells).Sublist cells ∧
      ((dedup_unique_cells cells).map cell_key).Nodup ∧
      (∀ c ∈ cells, cell_key c ∈ (dedup_unique_cells cells).map cell_key) ∧
      (∀ c ∈ dedup_unique_cells cells,
        cells.find? (fun x => cell_key x == cell_key c) = some c) := by
  refine ⟨dedup_go_sublist cells [], dedup_go_keys_nodup cells [], ?_, ?_⟩
  · intro c hc
    exact dedup_go_key_mem cells [] c hc rfl
  · intro c hc
    exact dedup_go_first_occurrence cells [] c hc

/-- C4 witness: the amended theorem applied to a concrete two-element
sequence repeating one finding. -/
theorem c4_witness :
    (dedup_unique_cells [dupA, dupA]).Sublist [dupA, dupA] ∧
      cell_key dupA ∈ (dedup_unique_cells [dupA, dupA]).map cell_key :=
  ⟨(c4_amended_dedup_key [dupA, dupA]).1,
   (c4_amended_dedup_key [dupA, dupA]).2.2.1 dupA (by decide)⟩

theorem dict_insert_key_self (d : List (String × String)) (k v : String) :
    k ∈ (dict_insert d k v).map Prod.fst := by
  induction d with
  | nil => simp [dict_insert]
  | cons p rest ih =>
    obtain ⟨a, b⟩ := p
    by_cases hak : a = k
    · simp [dict_insert, hak]
    · simp only [dict_insert, if_neg hak, List.map_cons, List.mem_cons]
      right
      exact ih

theorem dict_insert_keys_mono (d : List (String × String)) (k v key : String)
    (hmem : key ∈ d.map Prod.fst) : key ∈ (dict_insert d k v).map Prod.fst := by
  induction d with
  | nil => simp at hmem
  | cons p rest ih =>
    obtain ⟨a, b⟩ := p
    simp only [List.map_cons, List.mem_cons] at hmem
    by_cases hak : a = k
    · simp only [dict_insert, if_pos hak, List.map_cons, List.mem_cons]
      rcases hmem with h1 | h2
      · left; exact h1
      · right; exact h2
    · simp only [dict_insert, if_neg hak, List.map_cons, List.mem_cons]
      rcases hmem with h1 | h2
      · left; exact h1
      · right; exact ih h2

theorem dict_insert_length (d : List (String × String)) (k v : String) :
    (dict_insert d k v).length =
      if k ∈ d.map Prod.fst then d.length else d.length + 1 := by
  induction d with
  | nil => simp [dict_insert]
  | cons p rest ih =>
    obtain ⟨a, b⟩ := p
    by_cases hak : a = k
    · subst hak
      simp [dict_insert]
    · rw [show dict_insert ((a, b) :: rest) k v = (a, b) :: dict_insert rest k v from by
        simp [dict_insert, hak]]
      simp only [List.length_cons, List.map_cons, List.mem_cons]
      rw [ih]
      by_cases hm : k ∈ rest.map Prod.fst
      · rw [if_pos hm, if_pos (Or.inr hm)]
      · rw [if_neg hm, if_neg]
        push_neg
        exact ⟨fun he => hak he.symm, hm⟩

theorem dict_lookup_insert (d : List (String × String)) (k v k' : String) :
    dict_lookup (dict_insert d k v) k' = if k' = k then some v else dict_lookup d k' := by
  induction d with
  | nil =>
    by_cases h : k' = k
    · subst h
      simp [dict_insert, dict_lookup]
    · have h2 : ¬ k = k' := fun he => h he.symm
      rw [show dict_insert [] k v = [(k, v)] from rfl]
      rw [show dict_lookup [(k, v)] k' = if k = k' then some v else dict_lookup [] k' from rfl]
      rw [if_neg h2, if_neg h]
  | cons p rest ih =>
    obtain ⟨a, b⟩ := p
    by_cases hak : a = k
    · subst hak
      rw [show dict_insert ((a, b) :: rest) a v = (a, v) :: rest from by simp [dict_insert]]
      by_cases h : k' = a
      · subst h
        simp [dict_lookup]
      · have h2 : ¬ a = k' := fun he => h he.symm
        rw [show dict_lookup ((a, v) :: rest) k' = if a = k' then some v else dict_lookup rest k' from rfl]
        rw [if_neg h2, if_neg h]
        rw [show dict_lookup ((a, b) :: rest) k' = if a = k' then some b else dict_lookup rest k' from rfl]
        rw [if_neg h2]
    · rw [show dict_insert ((a, b) :: rest) k v = (a, b) :: dict_insert rest k v from by
        simp [dict_insert, hak]]
      by_cases h2 : a = k'
      · subst h2
        have hk'k : ¬ a = k := hak
        simp [dict_lookup, hk'k]
      · simp only [dict_lookup, if_neg h2, ih]

theorem dump_row_go_append (h : List String) :
    ∀ (xs ys : List String) (k : Nat) (d : List (String × String)),
      dump_row_go h k (xs ++ ys) d =
        dump_row_go h (k + xs.length) ys (dump_row_go h k xs d) := by
  intro xs
  induction xs with
  | nil => intro ys k d; simp [dump_row_go]
  | cons x rest ih =>
    intro ys k d
    simp only [List.cons_append, dump_row_go, List.length_cons]
    rw [show k + (rest.length + 1) = (k + 1) + rest.length from by omega]
    exact ih ys (k + 1) (dict_insert d (dump_col_name h k) (trimStr x))

theorem dump_row_go_length_le (h : List String) :
    ∀ (cells : List String) (k : Nat) (d : List (String × String)),
      (dump_row_go h k cells d).length ≤ d.length + cells.length := by
  intro cells
  induction cells with
  | nil => intro k d; simp [dump_row_go]
  | cons x rest ih =>
    intro k d
    simp only [dump_row_go, List.length_cons]
    have h1 := ih (k + 1) (dict_insert d (dump_col_name h k) (trimStr x))
    have h2 := dict_insert_length d (dump_col_name h k) (trimStr x)
    by_cases hm : dump_col_name h k ∈ d.map Prod.fst
    · rw [if_pos hm] at h2; omega
    · rw [if_neg hm] at h2; omega

theorem dump_row_go_keys_mono (h : List String) :
    ∀ (cells : List String) (k : Nat) (d : List (String × String)) (key : String),
      key ∈ d.map Prod.fst → key ∈ (dump_row_go h k cells d).map Prod.fst := by
  intro cells
  induction cells with
  | nil => intro k d key hmem; exact hmem
  | cons x rest ih =>
    intro k d key hmem
    simp only [dump_row_go]
    exact ih (k + 1) _ key (dict_insert_keys_mono d _ _ key hmem)

theorem dump_row_go_key_of_idx (h : List String) :
    ∀ (cells : List String) (k : Nat) (d : List (String × String)) (m : Nat),
      m < cells.length →
      dump_col_name h (k + m) ∈ (dump_row_go h k cells d).map Prod.fst := by
  intro cells
  induction cells with
  | nil => intro k d m hm; simp at hm
  | cons x rest ih =>
    intro k d m hm
    simp only [dump_row_go]
    cases m with
    | zero =>
      rw [Nat.add_zero]
      exact dump_row_go_keys_mono h rest (k + 1) _ _ (dict_insert_key_self d _ _)
    | succ m' =>
      rw [show k + (m' + 1) = (k + 1) + m' from by omega]
      exact ih (k + 1) _ m' (by simp at hm; omega)

theorem dump_row_go_lookup_skip (h : List String) :
    ∀ (cells : List String) (k : Nat) (d : List (String × String)) (key : String),
      (∀ m, m < cells.length → dump_col_name h (k + m) ≠ key) →
      dict_lookup (dump_row_go h k cells d) key = dict_lookup d key := by
  intro cells
  induction cells with
  | nil => intro k d key _; rfl
  | cons x rest ih =>
    intro k d key hno
    simp only [dump_row_go]
    rw [ih (k + 1) _ key (fun m hm => by
      rw [show k + 1 + m = k + (m + 1) from by omega]
      exact hno (m + 1) (by simp; omega))]
    rw [dict_lookup_insert, if_neg]
    intro he
    exact hno 0 (by simp) (by rw [Nat.add_zero]; exact he.symm)

theorem drop_eq_getD_cons {α : Type} (d : α) :
    ∀ (l : List α) (j : Nat), j < l.length → l.drop j = l.getD j d :: l.drop (j + 1)
  | [], j, hj => by simp at hj
  | a :: l, 0, _ => rfl
  | a :: l, j + 1, hj => by
    simp only [List.drop_succ_cons, List.getD_cons_succ]
    exact drop_eq_getD_cons d l j (by simpa using hj)

/-- C10 (confirmed): in a dumped row, a cell's value is keyed by the header
text of its column when the ordinal is within the header list, and by a
positional label beyond it; when two columns of one table carry the same
resolved name, the later cell's value overwrites the earlier one and the
row's data mapping ends up with fewer entries than the row has cells. -/
theorem c10_dump_row_overwrite (h c : List String) (i j : Nat)
    (hij : i < j) (hjh : j < h.length) (hjc : j < c.length)
    (hdup : h.getD i "" = h.getD j "") :
    dump_col_name h j = h.getD j "" ∧
      (∀ m, h.length ≤ m → dump_col_name h m = "Column " ++ toString (m + 1)) ∧
      (dump_row_data h c).length < c.length ∧
      ((∀ m, j < m → m < c.length → dump_col_name h m ≠ h.getD j "") →
        dict_lookup (dump_row_data h c) (h.getD j "") = some (trimStr (c.getD j ""))) := by
  have hih : i < h.length := hij.trans hjh
  have hname : dump_col_name h j = h.getD j "" := by
    unfold dump_col_name
    rw [if_pos hjh]
  have hnamei : dump_col_name h i = h.getD i "" := by
    unfold dump_col_name
    rw [if_pos hih]
  have htake : (c.take j).length = j := by
    rw [List.length_take]
    omega
  have hsplit : c = c.take j ++ c.getD j "" :: c.drop (j + 1) := by
    conv_lhs => rw [← List.take_append_drop j c]
    rw [drop_eq_getD_cons "" c j hjc]
  have hrun : dump_row_data h c =
      dump_row_go h (j + 1) (c.drop (j + 1))
        (dict_insert (dump_row_go h 0 (c.take j) []) (dump_col_name h j)
          (trimStr (c.getD j ""))) := by
    unfold dump_row_data
    conv_lhs => rw [hsplit]
    rw [dump_row_go_append]
    simp only [htake, Nat.zero_add, dump_row_go]
  have hmemi : dump_col_name h j ∈ (dump_row_go h 0 (c.take j) []).map Prod.fst := by
    have hkey := dump_row_go_key_of_idx h (c.take j) 0 [] i (by omega)
    rw [Nat.zero_add] at hkey
    rw [hname, ← hdup, ← hnamei]
    exact hkey
  have hlen1 : (dump_row_go h 0 (c.take j) []).length ≤ j := by
    have hle := dump_row_go_length_le h (c.take j) 0 []
    rw [htake] at hle
    simpa using hle
  have hlen2 :
      (dict_insert (dump_row_go h 0 (c.take j) []) (dump_col_name h j)
        (trimStr (c.getD j ""))).length = (dump_row_go h 0 (c.take j) []).length := by
    rw [dict_insert_length, if_pos hmemi]
  refine ⟨hname, ?_, ?_, ?_⟩
  · intro m hm
    unfold dump_col_name
    rw [if_neg (by omega)]
  · have hle := dump_row_go_length_le h (c.drop (j + 1)) (j + 1)
      (dict_insert (dump_row_go h 0 (c.take j) []) (dump_col_name h j)
        (trimStr (c.getD j "")))
    rw [hlen2, List.length_drop] at hle
    rw [hrun]
    omega
  · intro hno
    have hskip : ∀ m, m < (c.drop (j + 1)).length →
        dump_col_name h ((j + 1) + m) ≠ h.getD j "" := by
      intro m hm
      rw [List.length_drop] at hm
      exact hno (j + 1 + m) (by omega) (by omega)
    rw [hrun]
    rw [dump_row_go_lookup_skip h (c.drop (j + 1)) (j + 1)
      (dict_insert (dump_row_go h 0 (c.take j) []) (dump_col_name h j)
        (trimStr (c.getD j ""))) (h.getD j "") hskip]
    rw [dict_lookup_insert, if_pos hname.symm]

/-- C10 witness: the theorem at a concrete row with two identically named
columns; the dict holds one entry carrying the second cell's value. -/
theorem c10_witness :
    (dump_row_data ["A", "A"] ["x", "y"]).length < 2 ∧
      dict_lookup (dump_row_data ["A", "A"] ["x", "y"]) "A" = some "y" := by
  have hmain := c10_dump_row_overwrite ["A", "A"] ["x", "y"] 0 1
    (by decide) (by decide) (by decide) (by decide)
  refine ⟨hmain.2.2.1, ?_⟩
  have hlook := hmain.2.2.2 (fun m hm1 hm2 => by simp at hm2; omega)
  rw [show (["A", "A"].getD 1 "") = "A" from by decide] at hlook
  rw [hlook]
  decide
end PflegeBot

